import Mathlib

/-!
A shallow embedding, in Lean 4, of the pack-storage and snapshot core of the
repository (crates/rspack_storage/src/pack/{pack,scope,storage}.rs and
crates/rspack_core/src/cache/snapshot/mod.rs).

Modelling conventions:
* Byte sequences (`Vec<u8>`) are `List Nat` with byte values `< 256`.
* File paths (`PathBuf`) are `List String`; `PathBuf::join` is list append.
* The file system is a pure map `RPath → Option FileData`; a file's metadata
  size is the length of its byte content and its mtime (nanoseconds) is kept
  alongside the content.
* `FxHashMap` / `FxHashSet` are association lists / duplicate-free lists with
  insert-overwrite semantics; iteration order of a Rust hash map is not
  specified, the model fixes insertion order.
* Machine integers are `Nat` (resp. `Int`) with explicit reduction mod 2^64
  where wrap-around matters.
* Fallible Rust code returns `Except RErr`; a Rust `panic!` / `expect` /
  arithmetic-overflow abort or out-of-bounds index is modelled by the
  distinguished error constructor `RErr.fatal` carrying the panic message,
  so an ordinary `Err(..)` return (`RErr.err`) is distinguishable from a
  panic.
* `tokio`/`rayon` parallel fan-out with a final barrier (scope.rs) is
  order-independent per task and is modelled by sequential traversal.
-/

/-- Error type distinguishing a Rust `Err(error!(..))` return (`err`) from a
Rust panic / `expect` / overflow abort (`fatal`). -/
inductive RErr where
  | err (msg : String)
  | fatal (msg : String)
deriving DecidableEq, Repr

deriving instance DecidableEq for Except

/-- A `PathBuf`, as its list of components; `join` is append. -/
abbrev RPath := List String

/-- On-disk file: its byte content and its modification time in nanoseconds
(`MetadataExt::mtime_nsec`, an `i64`).  The metadata size (`size()`) of the
file is `bytes.length`. -/
structure FileData where
  bytes : List Nat
  mtimeNs : Int
deriving DecidableEq, Repr

/-- The file system, a pure partial map from paths to files. -/
abbrev FS := RPath → Option FileData

def fsInsert (fs : FS) (p : RPath) (fd : FileData) : FS :=
  fun q => if q = p then some fd else fs q

def fsErase (fs : FS) (p : RPath) : FS :=
  fun q => if q = p then none else fs q

/-- Association-list lookup (model of `HashMap::get`). -/
def alLookup {κ α : Type} [DecidableEq κ] : List (κ × α) → κ → Option α
  | [], _ => none
  | (k', v) :: t, k => if k' = k then some v else alLookup t k

/-- Association-list insert with overwrite (model of `HashMap::insert`). -/
def alInsert {κ α : Type} [DecidableEq κ] : List (κ × α) → κ → α → List (κ × α)
  | [], k, v => [(k, v)]
  | (k', v') :: t, k, v => if k' = k then (k, v) :: t else (k', v') :: alInsert t k v

/-- Duplicate-free insert (model of `HashSet::insert`). -/
def setInsert {κ : Type} [DecidableEq κ] (l : List κ) (k : κ) : List κ :=
  if k ∈ l then l else l ++ [k]

/-! ## FxHasher (rustc_hash v1.x, 64-bit target, little-endian)

The storage code hashes through `rustc_hash::FxHasher`.  The crate is an
external dependency; the model below reproduces its published 64-bit
implementation: state update `hash = (hash.rotate_left(5) ^ word) * SEED`,
with `Hasher::write` consuming the byte slice in greedy
8-byte/4-byte/2-byte/1-byte little-endian chunks, the chunking restarting at
every `write` call, and `write_u64` / `write_usize` / `write_i64` feeding the
value as a single word. -/

/-- 2^64, the `u64` modulus. -/
def u64M : Nat := 18446744073709551616

/-- The FxHasher multiplier `0x51_7c_c1_b7_27_22_0a_95`. -/
def fxSeed : Nat := 5871781006564002453

/-- `u64::rotate_left(5)`. -/
def rotl5 (h : Nat) : Nat := (h % 576460752303423488) * 32 + h / 576460752303423488

/-- `FxHasher::add_to_hash`: `hash = (hash.rotate_left(5) ^ i).wrapping_mul(SEED)`. -/
def fxAdd (h w : Nat) : Nat := (Nat.xor (rotl5 h) w) * fxSeed % u64M

/-- Little-endian value of a byte list (`uNN::from_ne_bytes` on x86-64). -/
def leVal (bs : List Nat) : Nat := bs.foldr (fun b acc => b + 256 * acc) 0

/-- The trailing `< 8` bytes of a `FxHasher::write` call, consumed as one
4-byte chunk if at least 4 remain, then one 2-byte chunk if at least 2
remain, then the final single byte if one remains. -/
def fxTail : List Nat → List Nat
  | [] => []
  | [a] => [a]
  | [a, b] => [leVal [a, b]]
  | [a, b, c] => [leVal [a, b], c]
  | [a, b, c, d] => [leVal [a, b, c, d]]
  | [a, b, c, d, e] => [leVal [a, b, c, d], e]
  | [a, b, c, d, e, f] => [leVal [a, b, c, d], leVal [e, f]]
  | a :: b :: c :: d :: e :: f :: g :: _ => [leVal [a, b, c, d], leVal [e, f], g]

/-- The word sequence one `FxHasher::write` call feeds to `add_to_hash`:
greedy 8-byte little-endian chunks while at least 8 bytes remain, then the
4/2/1-byte tail. -/
def fxWords : List Nat → List Nat
  | b0 :: b1 :: b2 :: b3 :: b4 :: b5 :: b6 :: b7 :: rest =>
    leVal [b0, b1, b2, b3, b4, b5, b6, b7] :: fxWords rest
  | bs => fxTail bs

/-- `FxHasher::write`. -/
def fxWriteBytes (h : Nat) (bs : List Nat) : Nat := (fxWords bs).foldl fxAdd h

/-- An `i64` value reinterpreted as the `u64` with the same bit pattern
(`i as u64`), as fed to the hasher by `Hasher::write_i64`. -/
def i64AsU64 (x : Int) : Nat := (x % (18446744073709551616 : Int)).toNat

/-- Lowercase hexadecimal digit. -/
def hexDigit (n : Nat) : Char := Char.ofNat (if n < 10 then 48 + n else 87 + n)

/-- `format!("{:016x}", v)` for `v < 2^64`: 16 zero-padded lowercase hex chars. -/
def hex16 (v : Nat) : String :=
  String.mk ((List.range 16).map (fun i => hexDigit (v / 16 ^ (15 - i) % 16)))

/-- The hash `Pack::validate` computes (pack.rs lines 151-166): a fresh
`FxHasher`, one `write` per key, then `write_usize(keys.len())`,
`write_u64(size)`, `write_i64(mtime_nsec)`, then `finish`. -/
def packHash (keys : List (List Nat)) (size : Nat) (mtimeNs : Int) : Nat :=
  fxAdd (fxAdd (fxAdd (keys.foldl fxWriteBytes 0) keys.length) size) (i64AsU64 mtimeNs)

/-- The hash as the specification words it (spec sections 3 and 6):
`fxhash64(concat(keys) ∥ u64(count) ∥ u64(size) ∥ i64(mtime_ns))`, i.e. the
concatenation of all key bytes fed to the hasher as one byte stream, then the
count, size and mtime words. -/
def specPackHash (keys : List (List Nat)) (size : Nat) (mtimeNs : Int) : Nat :=
  fxAdd (fxAdd (fxAdd (fxWriteBytes 0 keys.flatten) keys.length) size) (i64AsU64 mtimeNs)

/-- `get_key_bucket_id` (scope.rs lines 410-415): fxhash of the key mod the
bucket count. -/
def get_key_bucket_id (key : List Nat) (total : Nat) : Nat :=
  fxWriteBytes 0 key % total

/-! ## Text-level helpers: lines, UTF-8, decimal parsing

`BufRead::lines` splits the stream at `\n` bytes, UTF-8-decodes each chunk
(an invalid chunk yields an `Err` item), and strips one trailing `\r`. -/

/-- Segments of a byte stream split at a separator byte: `n` separators
yield `n + 1` segments (the result is always nonempty). -/
def splitSeg (sep : Nat) : List Nat → List (List Nat)
  | [] => [[]]
  | b :: t =>
    if b = sep then [] :: splitSeg sep t
    else
      match splitSeg sep t with
      | s :: rest => (b :: s) :: rest
      | [] => [[b]]

/-- Split a byte stream at `0x0A` exactly as the `BufRead::lines` iterator
produces raw line chunks: a final chunk without a terminating newline is
still yielded, a trailing newline does not produce an extra empty chunk. -/
def linesOf (bs : List Nat) : List (List Nat) :=
  let segs := splitSeg 10 bs
  if segs.getLast? = some [] then segs.dropLast else segs

/-- A UTF-8 continuation byte `10xxxxxx`. -/
def utf8Cont (b : Nat) : Bool := 128 ≤ b ∧ b < 192

/-- Whether a byte list is valid UTF-8 (the check `String::from_utf8`
performs inside `BufRead::lines`). -/
def isValidUTF8 : List Nat → Bool
  | [] => true
  | b :: rest =>
    if b < 128 then isValidUTF8 rest
    else if b < 194 then false
    else if b ≤ 223 then
      match rest with
      | c1 :: r => utf8Cont c1 && isValidUTF8 r
      | [] => false
    else if b ≤ 239 then
      match rest with
      | c1 :: c2 :: r =>
        utf8Cont c1 && (decide (b ≠ 224) || decide (160 ≤ c1)) &&
          (decide (b ≠ 237) || decide (c1 ≤ 159)) && utf8Cont c2 && isValidUTF8 r
      | _ => false
    else if b ≤ 244 then
      match rest with
      | c1 :: c2 :: c3 :: r =>
        utf8Cont c1 && (decide (b ≠ 240) || decide (144 ≤ c1)) &&
          (decide (b ≠ 244) || decide (c1 ≤ 143)) && utf8Cont c2 && utf8Cont c3 &&
          isValidUTF8 r
      | _ => false
    else false

/-- Strip one trailing carriage return, as `lines()` does after removing the
newline. -/
def stripCR (l : List Nat) : List Nat :=
  if l.getLast? = some 13 then l.dropLast else l

/-- One item of the `lines()` iterator, from the raw chunk: `Err` (as a unit,
the io error payload is irrelevant) when the chunk is not valid UTF-8, else
the line's bytes with a trailing `\r` removed. -/
def rustLine (raw : List Nat) : Except Unit (List Nat) :=
  if isValidUTF8 raw then .ok (stripCR raw) else .error ()

/-- Split at `0x20` the way `str::split(" ")` does: `n` separators yield
`n + 1` items, the empty string yields one empty item. -/
def splitOnSp (bs : List Nat) : List (List Nat) := splitSeg 32 bs

/-- Digit-folding core of `str::parse::<usize>`. -/
def parseDigits : List Nat → Nat → Option Nat
  | [], acc => some acc
  | b :: t, acc =>
    if 48 ≤ b ∧ b ≤ 57 then parseDigits t (acc * 10 + (b - 48)) else none

/-- `str::parse::<usize>` on a byte slice: an optional leading `+`, at least
one digit, no overflow past `usize::MAX` (on sequences of digits the final
value overflows iff some intermediate checked step does). -/
def parseUsize (bs : List Nat) : Option Nat :=
  let core := match bs with
    | 43 :: rest => rest
    | _ => bs
  if core.isEmpty then none
  else match parseDigits core 0 with
    | some v => if v < u64M then some v else none
    | none => none

/-- The key-length header: every space-separated item parsed as `usize`; in
the source each item is parsed under `.expect("should have meta info")`, so
one failure is a panic. -/
def parseLens (bs : List Nat) : Option (List Nat) :=
  (splitOnSp bs).mapM parseUsize

/-! ## Pack (pack.rs) -/

/-- `PackKeysState`: Pending | Failed | Value. -/
inductive PackKeysState where
  | pending
  | failed (e : RErr)
  | value (v : List (List Nat))
deriving DecidableEq, Repr

/-- `PackContentsState`: Pending | Failed | Value. -/
inductive PackContentsState where
  | pending
  | failed (e : RErr)
  | value (v : List (List Nat × List Nat))
deriving DecidableEq, Repr

/-- In-memory `Pack`: a path and two lazily-loaded slots. -/
structure Pack where
  path : RPath
  keys : PackKeysState
  contents : PackContentsState
deriving DecidableEq, Repr

def Pack.new (p : RPath) : Pack := ⟨p, .pending, .pending⟩

/-- The byte-slicing loop of `read_keys` (pack.rs lines 117-126): running
offset `last`, each key is `&bytes[last..last+len]`; an end offset past the
blob is an out-of-bounds slice, i.e. a panic. -/
def sliceKeys : List Nat → List Nat → Nat → Except RErr (List (List Nat))
  | [], _, _ => .ok []
  | kl :: t, blob, last =>
    if last + kl ≤ blob.length then
      match sliceKeys t blob (last + kl) with
      | .ok ks => .ok (((blob.drop last).take kl) :: ks)
      | .error e => .error e
    else .error (.fatal "byte index out of range")

/-- The keys "sliced by the declared offsets": the value `sliceKeys` produces
when every slice stays in bounds. -/
def sliceSpec : List Nat → List Nat → Nat → List (List Nat)
  | [], _, _ => []
  | kl :: t, blob, last => ((blob.drop last).take kl) :: sliceSpec t blob (last + kl)

/-- `Pack::read_keys` (pack.rs lines 95-128).  Missing file and missing /
undecodable header lines are `Err` returns; a header item that does not parse
as `usize` hits `.expect("should have meta info")` (a panic), and a key blob
shorter than the declared lengths hits an out-of-bounds slice (a panic). -/
def Pack.read_keys (fs : FS) (path : RPath) : Except RErr (List (List Nat)) :=
  match fs path with
  | none => .error (.err "cache pack file does not exists")
  | some fd =>
    match linesOf fd.bytes with
    | [] => .error (.err "failed to read pack key meta")
    | l0 :: rest =>
      match rustLine l0 with
      | .error _ => .error (.err "failed to read pack key meta")
      | .ok m0 =>
        match parseLens m0 with
        | none => .error (.fatal "should have meta info")
        | some lens =>
          match rest with
          | [] => .error (.err "failed to read pack keys")
          | l1 :: _ =>
            match rustLine l1 with
            | .error _ => .error (.err "failed to read pack keys")
            | .ok blob => sliceKeys lens blob 0

/-- `Pack::read_contents` (pack.rs lines 130-149): skip two lines, then pair
each key positionally with the next line; running out of lines (or an
undecodable line) is the `Err` "pack keys not match their contents". -/
def readContentLines : List (List Nat) → List (List Nat) →
    Except RErr (List (List Nat × List Nat))
  | [], _ => .ok []
  | key :: kt, ls =>
    match ls with
    | [] => .error (.err "pack keys not match their contents")
    | l :: lt =>
      match rustLine l with
      | .error _ => .error (.err "pack keys not match their contents")
      | .ok v =>
        match readContentLines kt lt with
        | .ok r => .ok ((key, v) :: r)
        | .error e => .error e

def Pack.read_contents (fs : FS) (path : RPath) (keys : List (List Nat)) :
    Except RErr (List (List Nat × List Nat)) :=
  match fs path with
  | none => .error (.err "cache pack file does not exists")
  | some fd => readContentLines keys ((linesOf fd.bytes).drop 2)

/-- The pack-file encoding `Pack::write` streams into its `BufWriter`
(pack.rs lines 61-82): the space-joined decimal key lengths, newline, the
concatenated key bytes, newline, then each value followed by a newline. -/
def packEncode (ks : List (List Nat)) (cs : List (List Nat × List Nat)) : List Nat :=
  (List.intercalate [32] (ks.map (fun k => (Nat.toDigits 10 k.length).map Char.toNat)))
    ++ [10] ++ ks.flatten ++ [10] ++ (cs.map (fun kv => kv.2 ++ [10])).flatten

/-- `Pack::write` (pack.rs lines 48-85) as a file-system transformer.
The source first creates/truncates the target (`File::create`), then — since
the freshly created path exists — immediately unlinks it via `remove_file`,
and only then checks the two slots and streams the encoding into the
`BufWriter` over the (now unlinked) handle.  The buffered bytes
(`packEncode`) therefore never become reachable under `path`; the function
returns the written file system together with the `Result`. -/
def Pack.write (fs : FS) (p : Pack) (nowNs : Int) : Except RErr Unit × FS :=
  let fs1 := fsInsert fs p.path { bytes := [], mtimeNs := nowNs }
  let fs2 := fsErase fs1 p.path
  match p.keys, p.contents with
  | .value _, .value _ => (.ok (), fs2)
  | .value _, _ => (.error (.err "pack contents is not ready"), fs2)
  | _, _ => (.error (.err "pack keys is not ready"), fs2)

/-- `Pack::validate` (pack.rs lines 151-168): hash the keys, the key count,
the file size and the mtime, render as 16 lowercase hex chars and compare
with the expected string; failing to open the file / read its metadata is an
`Err`. -/
def Pack.validate (fs : FS) (path : RPath) (keys : List (List Nat)) (hash : String) :
    Except RErr Bool :=
  match fs path with
  | none => .error (.err "open pack file failed")
  | some fd => .ok (hash = hex16 (packHash keys fd.bytes.length fd.mtimeNs))

/-! ## Scope (scope.rs) and its metadata

`ScopeMeta`, `PackFileMeta` and `PackStorageOptions` are declared in a
module of this crate that is not part of the provided sources (they are
imported from `super`); their fields are modelled from the spec (sections 3
and 6) and from how scope.rs / storage.rs use them. -/

/-- Modelled from the spec: `PackFileMeta { name, hash }`, one pack
descriptor inside `ScopeMeta`. -/
structure PackFileMeta where
  name : String
  hash : String
deriving DecidableEq, Repr

/-- Modelled from the spec: `ScopeMeta` — bucket count, max pack size, the
time of the last save (seconds since the epoch) and the per-bucket ordered
pack descriptors. -/
structure ScopeMeta where
  buckets : Nat
  max_pack_size : Nat
  last_modified : Nat
  packs : List (List PackFileMeta)
deriving DecidableEq, Repr

/-- Modelled from the spec (section 6): PackStorage configuration. -/
structure PackStorageOptions where
  location : RPath
  buckets : Nat
  max_pack_size : Nat
  expires : Nat
deriving DecidableEq, Repr

/-- Modelled from the spec (section 4.4 step 4): `ScopeMeta::new(options)`
copies `buckets` / `max_pack_size` from the options and stamps
`last_modified` with the current wall-clock seconds (passed explicitly as
`now`); its `packs` field is immediately overwritten by `save_scope`. -/
def ScopeMeta.new (opts : PackStorageOptions) (now : Nat) : ScopeMeta :=
  { buckets := opts.buckets, max_pack_size := opts.max_pack_size,
    last_modified := now, packs := [] }

/-- `ScopeMetaState`: Pending | Failed | Value. -/
inductive ScopeMetaState where
  | pending
  | failed (e : RErr)
  | value (m : ScopeMeta)
deriving DecidableEq, Repr

/-- `ScopePacksState`: Pending | Failed | Value of a hash-keyed pack map. -/
inductive ScopePacksState where
  | pending
  | failed (e : RErr)
  | value (m : List (String × Pack))
deriving DecidableEq, Repr

/-- `PackScope`: the lazy view of one scope. -/
structure PackScope where
  path : RPath
  meta : ScopeMetaState
  packs : ScopePacksState
deriving DecidableEq, Repr

def PackScope.new (p : RPath) : PackScope := ⟨p, .pending, .pending⟩

/-- The pack map `ensure_meta` builds from a loaded meta (scope.rs lines
228-249): for each bucket id below `meta.buckets`, one
`Pack::new(bucket_dir.join(name))` per descriptor, keyed by the descriptor's
hash and collected into a hash map. -/
def populateList (path : RPath) (m : ScopeMeta) : List (String × Pack) :=
  (List.range m.buckets).foldl
    (fun acc b =>
      ((m.packs[b]?).getD []).foldl
        (fun a pm => alInsert a pm.hash (Pack.new (path ++ [toString b, pm.name]))) acc)
    []

/-- Bucket-map population including the `.expect("should have pack")` panic
hit when `meta.packs` is shorter than `meta.buckets`. -/
def populatePacks (path : RPath) (m : ScopeMeta) : Except RErr (List (String × Pack)) :=
  if m.buckets ≤ m.packs.length then .ok (populateList path m)
  else .error (.fatal "should have pack")

/-- `ensure_meta` (scope.rs lines 213-258), as the meta/packs pair the ok
path establishes.  The source caches load results in the scope's slots; with
a fixed file system the cached and freshly recomputed slot values coincide,
so the model recomputes.  `ScopeMeta::read` itself is not in the provided
sources; modelled from the spec as a partial map `metafs` from scope paths
to decodable metas. -/
def ensureScope (metafs : RPath → Option ScopeMeta) (sc : PackScope) :
    Except RErr (ScopeMeta × List (String × Pack)) :=
  match sc.meta, sc.packs with
  | .failed _, _ => .error (.err "load scope meta failed")
  | .value m, .pending =>
    (match populatePacks sc.path m with
     | .ok ps => .ok (m, ps)
     | .error e => .error e)
  | .value m, .value ps => .ok (m, ps)
  | .value _, .failed _ => .error (.err "scope packs failed")
  | .pending, st =>
    (match metafs sc.path with
     | none => .error (.err "load scope meta failed")
     | some m =>
       match st with
       | .pending =>
         (match populatePacks sc.path m with
          | .ok ps => .ok (m, ps)
          | .error e => .error e)
       | .value ps => .ok (m, ps)
       | .failed _ => .error (.err "scope packs failed"))

/-- `ensure_pack_keys` (scope.rs lines 127-161): every pack whose `keys` slot
is Pending gets `Pack::read_keys` result assigned as Value or Failed. -/
def loadKeysAL (fs : FS) (l : List (String × Pack)) : List (String × Pack) :=
  l.map (fun hp =>
    match hp.2.keys with
    | .pending =>
      (hp.1, { hp.2 with keys :=
        match Pack.read_keys fs hp.2.path with
        | .ok v => .value v
        | .error e => .failed e })
    | _ => hp)

/-- `ensure_pack_contents` (scope.rs lines 163-211): every pack with loaded
keys and Pending contents gets `Pack::read_contents` assigned. -/
def loadContentsAL (fs : FS) (l : List (String × Pack)) : List (String × Pack) :=
  l.map (fun hp =>
    match hp.2.keys, hp.2.contents with
    | .value ks, .pending =>
      (hp.1, { hp.2 with contents :=
        match Pack.read_contents fs hp.2.path ks with
        | .ok v => .value v
        | .error e => .failed e })
    | _, _ => hp)

/-- The per-pack boolean of `validate_packs` (scope.rs lines 98-103):
`Pack::validate`, with any error collapsed to `false`. -/
def pvBool (fs : FS) (path : RPath) (ks : List (List Nat)) (hash : String) : Bool :=
  match Pack.validate fs path ks hash with
  | .ok v => v
  | .error _ => false

def keysIsValue : PackKeysState → Bool
  | .value _ => true
  | _ => false

/-- `validate_packs` (scope.rs lines 93-125): only packs whose keys are
`Value` are validated; their results are conjoined. -/
def validatePacksB (fs : FS) (l : List (String × Pack)) : Bool :=
  (l.filter (fun hp => keysIsValue hp.2.keys)).all
    (fun hp =>
      match hp.2.keys with
      | .value ks => pvBool fs hp.2.path ks hp.1
      | _ => true)

/-- `u64` subtraction with the overflow check of a debug build: subtracting a
larger value is an "attempt to subtract with overflow" panic (a release
build instead wraps to a huge value). -/
def checkedSub (a b : Nat) : Except RErr Nat :=
  if b ≤ a then .ok (a - b) else .error (.fatal "attempt to subtract with overflow")

/-- `PackScope::validate` (scope.rs lines 65-91): ensure the meta, reject on
option mismatch (`Err`), reject an expired meta (`Err`, with the age computed
by the u64 subtraction `current_time - last_modified`), ensure the pack keys,
then conjoin the per-pack validations. -/
def PackScope.validate (sc : PackScope) (opts : PackStorageOptions) (currentTime : Nat)
    (metafs : RPath → Option ScopeMeta) (fs : FS) : Except RErr Bool :=
  match ensureScope metafs sc with
  | .error e => .error e
  | .ok (m, ps) =>
    if m.buckets ≠ opts.buckets ∨ m.max_pack_size ≠ opts.max_pack_size then
      .error (.err "cache options changed")
    else
      match checkedSub currentTime m.last_modified with
      | .error e => .error e
      | .ok age =>
        if opts.expires < age then .error (.err "cache meta expired")
        else .ok (validatePacksB fs (loadKeysAL fs ps))

/-- `PackScope::get_contents` (scope.rs lines 47-63): ensure meta, keys and
contents, then flatten every `Value` contents slot in pack-map order. -/
def PackScope.get_contents (sc : PackScope) (metafs : RPath → Option ScopeMeta) (fs : FS) :
    Except RErr (List (List Nat × List Nat)) :=
  match ensureScope metafs sc with
  | .error e => .error e
  | .ok (_, ps) =>
    .ok ((loadContentsAL fs (loadKeysAL fs ps)).foldl
      (fun acc hp =>
        match hp.2.contents with
        | .value cs => acc ++ cs
        | _ => acc) [])

/-! ## save_scope (scope.rs lines 261-408)

The rebuild of one scope from the staged update map.  Note three properties
of the source faithfully kept by this model: `new_scope_meta.packs` is set to
`Vec::with_capacity(options.buckets)` — an *empty* vector — so any later
`new_scope_meta.packs[dirty_bucket_id]` indexing is an out-of-bounds panic;
the vector `new_packs` is declared empty and never extended; and the live
entry list `res` is computed (with its `.expect` panics) and then dropped. -/

/-- `new_scope_meta.packs[bucket].push(x)` — an out-of-bounds panic whenever
`bucket` is not below the vector's length. -/
def vecPush (mp : List (List PackFileMeta)) (i : Nat) (x : PackFileMeta) :
    Except RErr (List (List PackFileMeta)) :=
  if i < mp.length then .ok (mp.set i ((mp[i]?).getD [] ++ [x]))
  else .error (.fatal "index out of bounds")

/-- `dirty_buckets.entry(b).or_default().push(key)`. -/
def alPushKey (l : List (Nat × List (List Nat))) (b : Nat) (k : List Nat) :
    List (Nat × List (List Nat)) :=
  match l with
  | [] => [(b, [k])]
  | (b', ks) :: t => if b' = b then (b', ks ++ [k]) :: t else (b', ks) :: alPushKey t b k

/-- Bucketing of the staged keys (scope.rs lines 283-289). -/
def dirtyBuckets (data : List (List Nat × Option (List Nat))) (total : Nat) :
    List (Nat × List (List Nat)) :=
  data.foldl (fun acc kv => alPushKey acc (get_key_bucket_id kv.1 total) kv.1) []

def packKeysOrEmpty (p : Pack) : List (List Nat) :=
  match p.keys with
  | .value v => v
  | _ => []

/-- The bucket-wide `key → pack_hash` index (scope.rs lines 311-324). -/
def buildKeyIndex (bPacks : List (String × Pack)) : List (List Nat × String) :=
  bPacks.foldl
    (fun acc hp => (packKeysOrEmpty hp.2).foldl (fun a k => alInsert a k hp.1) acc) []

/-- The classification loop (scope.rs lines 333-354): returns
`(insert_keys, removed_packs, removed_keys)`; the `data` lookup is under
`.expect("should have value")`. -/
def classifyKeys (data : List (List Nat × Option (List Nat)))
    (k2h : List (List Nat × String)) (dirty : List (List Nat)) :
    Except RErr (List (List Nat) × List String × List (List Nat)) :=
  dirty.foldlM
    (fun acc k =>
      match alLookup data k with
      | none => .error (.fatal "should have value")
      | some v =>
        .ok (match v with
          | some _ =>
            (match alLookup k2h k with
             | some h => (setInsert acc.1 k, setInsert acc.2.1 h, acc.2.2)
             | none => (setInsert acc.1 k, acc.2.1, acc.2.2))
          | none =>
            (match alLookup k2h k with
             | some h => (acc.1, setInsert acc.2.1 h, setInsert acc.2.2 k)
             | none => acc)))
    ([], [], [])

/-- Processing of one dirty bucket (scope.rs lines 291-402), threading the
pair (new meta pack lists, new scope pack map). -/
def processBucket (oldMetas : List (List PackFileMeta)) (oldPacks : List (String × Pack))
    (data : List (List Nat × Option (List Nat)))
    (st : List (List PackFileMeta) × List (String × Pack)) (bk : Nat × List (List Nat)) :
    Except RErr (List (List PackFileMeta) × List (String × Pack)) := do
  let bMetas := (oldMetas[bk.1]?).getD []
  let bPacks ← bMetas.mapM (fun pm =>
    match alLookup oldPacks pm.hash with
    | some p => Except.ok (pm.hash, p)
    | none => Except.error (RErr.fatal "should have old pack"))
  let k2h := buildKeyIndex bPacks
  let cls ← classifyKeys data k2h bk.2
  let removedList ← cls.2.1.mapM (fun h =>
    match alLookup oldPacks h with
    | some p => Except.ok p
    | none => Except.error (RErr.fatal "should have pack"))
  let res0 := removedList.foldl
    (fun acc p =>
      match p.contents with
      | .value cs => acc ++ cs
      | _ => acc) []
  let res1 := (res0.filter (fun kv => decide (kv.1 ∉ cls.2.2))).filter
    (fun kv => decide (kv.1 ∉ cls.1))
  let insPairs ← cls.1.mapM (fun k =>
    match alLookup data k with
    | some (some v) => Except.ok (k, v)
    | _ => Except.error (RErr.fatal "should have value"))
  let _res := res1 ++ insPairs
  let remain ← (bMetas.filter (fun pm => decide (pm.hash ∉ cls.2.1))).mapM (fun pm =>
    match alLookup oldPacks pm.hash with
    | some p => Except.ok (pm, p)
    | none => Except.error (RErr.fatal "should have pack"))
  remain.foldlM
    (fun acc pmp => do
      let mp ← vecPush acc.1 bk.1 pmp.1
      Except.ok (mp, alInsert acc.2 pmp.1.hash pmp.2))
    st

/-- `save_scope` (scope.rs lines 261-408). -/
def save_scope (scope : PackScope) (data : List (List Nat × Option (List Nat)))
    (opts : PackStorageOptions) (now : Nat) : Except RErr PackScope :=
  let newMeta0 := ScopeMeta.new opts now
  let oldMetas := match scope.meta with
    | .value m => m.packs
    | _ => []
  let oldPacks := match scope.packs with
    | .value m => m
    | _ => []
  match (dirtyBuckets data opts.buckets).foldlM (processBucket oldMetas oldPacks data)
      ([], []) with
  | .error e => .error e
  | .ok st =>
    .ok { path := scope.path, meta := .value { newMeta0 with packs := st.1 },
          packs := .value st.2 }

/-! ## PackStorage (storage.rs) -/

/-- The two mutex-protected maps of `PackStorage`: the scope registry and the
staged updates. -/
structure StoreState where
  scopes : List (String × PackScope)
  updates : List (String × List (List Nat × Option (List Nat)))
deriving DecidableEq, Repr

def StoreState.empty : StoreState := ⟨[], []⟩

/-- `Storage::set` — stage `scope_updates[scope][key] = Some(value)`. -/
def PackStorage.set (st : StoreState) (scope : String) (key value : List Nat) : StoreState :=
  { st with updates :=
      alInsert st.updates scope (alInsert ((alLookup st.updates scope).getD []) key (some value)) }

/-- `Storage::remove` — stage `scope_updates[scope][key] = None`. -/
def PackStorage.remove (st : StoreState) (scope : String) (key : List Nat) : StoreState :=
  { st with updates :=
      alInsert st.updates scope (alInsert ((alLookup st.updates scope).getD []) key none) }

/-- The `save` helper (storage.rs lines 75-89): `save_scope` over every scope
present in the staged data, results collected through `Result`, so the first
failing scope aborts the whole collection.  The source then returns `Ok(())`
where its signature promises the new scope map — that line does not
type-check; the model returns the collected scopes keyed by their names,
which is what the sole caller (`idle`) consumes. -/
def save (scopes : List (String × PackScope))
    (data : List (String × List (List Nat × Option (List Nat))))
    (opts : PackStorageOptions) (now : Nat) :
    Except RErr (List (String × PackScope)) :=
  data.mapM (fun nd =>
    match alLookup scopes nd.1 with
    | some sc =>
      (match save_scope sc nd.2 opts now with
       | .ok s => Except.ok (nd.1, s)
       | .error e => Except.error e)
    | none => Except.error (RErr.fatal "internal error: entered unreachable code"))

/-- `Storage::idle` (storage.rs lines 59-72): both maps are taken out of
the store (`mem::replace` with the default), scopes named only in the
updates are created fresh, `save` runs, and on success the registry is
replaced with the saved scopes.  When `save` fails the error propagates via
`?` and both maps stay empty. -/
def PackStorage.idle (st : StoreState) (opts : PackStorageOptions) (now : Nat) :
    Except RErr Unit × StoreState :=
  let data := st.updates
  let scopes := data.foldl
    (fun acc nd =>
      if (alLookup acc nd.1).isSome then acc
      else acc ++ [(nd.1, PackScope.new (opts.location ++ [nd.1]))])
    st.scopes
  match save scopes data opts now with
  | .error e => (.error e, ⟨[], []⟩)
  | .ok newScopes => (.ok (), ⟨newScopes, []⟩)

/-- `Storage::get_all` (storage.rs lines 36-47): look up or create the scope,
validate it, then `get_contents`; a false validation is the `Err` "scope is
inconsistent". -/
def PackStorage.get_all (st : StoreState) (name : String) (opts : PackStorageOptions)
    (currentTime : Nat) (metafs : RPath → Option ScopeMeta) (fs : FS) :
    Except RErr (List (List Nat × List Nat)) :=
  let sc := (alLookup st.scopes name).getD (PackScope.new (opts.location ++ [name]))
  match sc.validate opts currentTime metafs fs with
  | .error e => .error e
  | .ok true => sc.get_contents metafs fs
  | .ok false => .error (.err "scope is inconsistent")

/-! ## Snapshot (rspack_core cache/snapshot/mod.rs)

The snapshot classifies each added path through the option matchers and a
library-version probe (`option.rs` / `strategy.rs` are not in the provided
sources, so a path's classification and resolvable version are modelled from
the spec as precomputed attributes of the path), and stages one or two
`Storage::set` calls per path.  Strategy (de)serialization through
`rspack_cacheable` is modelled from the spec as storing the `Strategy` value
itself. -/

/-- `Strategy = CompileTime(u64 seconds) | LibVersion(string)`. -/
inductive Strategy where
  | compileTime (t : Nat)
  | libVersion (v : String)
deriving DecidableEq, Repr

/-- Modelled from the spec: one path argument of `Snapshot::add` together
with its precomputed environment facts — whether the file exists, whether it
matches `immutable_paths` / `managed_paths`, and the library version
`StrategyHelper::lib_version` resolves for it, if any. -/
structure SnapFile where
  pathStr : String
  fileExists : Bool
  immutable : Bool
  managed : Bool
  libver : Option String
deriving DecidableEq, Repr

/-- `Snapshot::add` (snapshot/mod.rs lines 29-56) as the ordered list of
`storage.set` events it issues.  `t0` is the single
`StrategyHelper::compile_time()` value taken before the loop.  For each
existing, non-immutable path: a managed path with a resolvable library
version first stores `LibVersion`, and then — unconditionally, for every
path that reaches that point — the shared `CompileTime(t0)` strategy is
stored over it. -/
def Snapshot.add (t0 : Nat) (files : List SnapFile) : List (String × Strategy) :=
  files.foldl
    (fun acc f =>
      if !f.fileExists then acc
      else if f.immutable then acc
      else
        let acc := if f.managed then
            match f.libver with
            | some v => acc ++ [(f.pathStr, Strategy.libVersion v)]
            | none => acc
          else acc
        acc ++ [(f.pathStr, Strategy.compileTime t0)])
    []

/-- The value a later reader deserializes for `path`: the last value `set`
wrote under that key (storage is last-writer-wins per key). -/
def finalStored (events : List (String × Strategy)) (path : String) : Option Strategy :=
  (events.filter (fun e => e.1 = path)).getLast?.map (fun e => e.2)

/-! ## Concrete fixtures used by the claim theorems -/

/-- The empty file system. -/
def fsEmpty : FS := fun _ => none

/-- A meta store with no readable scope meta. -/
def metafsEmpty : RPath → Option ScopeMeta := fun _ => none

/-- Options: one bucket, 1 MB packs, an hour of expiry. -/
def opts1 : PackStorageOptions := ⟨["root"], 1, 1000000, 3600⟩

/-- Store state after `set("s", "k", "v")` on a fresh store (byte 107 is
`k`, byte 118 is `v`). -/
def st1 : StoreState := PackStorage.set StoreState.empty "s" [107] [118]

/-- A ready-to-write pack holding the single entry `k ↦ v`. -/
def p2 : Pack := ⟨["root", "s", "0", "p0"], .value [[107]], .value [([107], [118])]⟩

/-- A scope meta listing one pack descriptor in its single bucket. -/
def m3 : ScopeMeta := ⟨1, 5, 10, [[⟨"p", "h"⟩]]⟩

def opts3 : PackStorageOptions := ⟨["r"], 1, 5, 100⟩

/-- A scope whose meta is loaded as `m3` and whose pack map is not yet
populated. -/
def sc3 : PackScope := ⟨["r", "s"], .value m3, .pending⟩

/-- A scope meta whose sole pack descriptor records the correct integrity
hash of the pack file in `fs3w`. -/
def m3w : ScopeMeta := ⟨1, 5, 10, [[⟨"p", hex16 (packHash [[107]] 4 9)⟩]]⟩

def sc3w : PackScope := ⟨["r", "s"], .value m3w, .pending⟩

/-- A file system holding the well-formed one-key pack file of `m3w`
(bytes of the two-line header for the single key `k`). -/
def fs3w : FS := fun q => if q = ["r", "s", "0", "p"] then some ⟨[49, 10, 107, 10], 9⟩ else none

/-- A scope whose meta and loaded pack map hold one pack with loaded (empty)
keys, used as the scope that makes `save_scope` panic. -/
def scA : PackScope :=
  ⟨["root", "A"], .value ⟨1, 1000000, 50, [[⟨"p0", "h0"⟩]]⟩,
   .value [("h0", ⟨["root", "A", "0", "p0"], .value [], .pending⟩)]⟩

/-- A store holding scope `A` with staged updates for scopes `A` and `B`. -/
def st4 : StoreState :=
  ⟨[("A", scA)], [("A", [([107], some [1])]), ("B", [([108], some [2])])]⟩

/-- A scope with one fully loaded pack holding the entry `k ↦ v` in its
single bucket. -/
def sc5 : PackScope :=
  ⟨["root", "s"], .value ⟨1, 1000000, 50, [[⟨"p0", "h0"⟩]]⟩,
   .value [("h0", ⟨["root", "s", "0", "p0"], .value [[107]], .value [([107], [118])]⟩)]⟩

/-- A pack file whose first line is `x` — a key-length header that fails
decimal parsing. -/
def fs7bad : FS := fun q => if q = ["f"] then some ⟨[120, 10, 10], 5⟩ else none

/-- A well-formed one-key pack file (`1\nk\n`). -/
def fs7ok : FS := fun q => if q = ["f7"] then some ⟨[49, 10, 107, 10], 9⟩ else none

/-- An existing, non-immutable managed path with a resolvable library
version. -/
def f8 : SnapFile := ⟨"/m/a.js", true, false, true, some "1.0.0"⟩

/-- A three-byte pack file with mtime 5 ns. -/
def fs9 : FS := fun q => if q = ["f9"] then some ⟨[0, 1, 2], 5⟩ else none

/-- A meta for the expiry theorems: one (empty) bucket, written at second
50. -/
def m10 : ScopeMeta := ⟨1, 2, 50, [[]]⟩

def opts10 : PackStorageOptions := ⟨[], 1, 2, 3⟩

/-! ## Claim theorems -/

/-- Claim C1 (failing input).  The claim says that after `set` of a disjoint
key set followed by a successful `idle`, `get_all` returns the previous
entries minus the staged deletes plus the staged inserts.  On the concrete
input — a fresh scope (empty previous entry set) and the single staged
insert `k ↦ v` — `idle` succeeds, yet `get_all` afterwards returns the empty
list instead of `[(k, v)]`: `save_scope` computes the live entries of a
dirty bucket and then drops them (its `new_packs` vector is never filled),
so the staged insert is lost. -/
theorem c1_idle_then_get_all_loses_insert :
    (PackStorage.idle st1 opts1 100).1 = .ok () ∧
    PackStorage.get_all (PackStorage.idle st1 opts1 100).2 "s" opts1 100 metafsEmpty fsEmpty
      = .ok [] := by
  constructor
  · decide
  · decide

/-- Claim C2 (failing input).  The claim says a written pack can be read
back.  On the concrete one-entry pack `p2`, `Pack::write` returns `Ok` — but
the write sequence is `File::create` (the path now exists), then the
`self.path.exists()` check, then `remove_file`, which unlinks the file the
call just created; the buffered bytes go to the unlinked handle.  So
`read_keys` on the same path afterwards fails with the Missing-kind error
instead of returning the written keys. -/
theorem c2_write_unlinks_its_own_file :
    (Pack.write fsEmpty p2 7).1 = .ok () ∧
    Pack.read_keys (Pack.write fsEmpty p2 7).2 ["root", "s", "0", "p0"]
      = .error (.err "cache pack file does not exists") := by
  constructor
  · decide
  · decide

/-- Claim C3 (counterexample).  The claim requires `validate` to be true
only if every pack's keys load successfully — a pack whose keys failed to
load must make the scope invalid.  On the concrete scope `sc3` (options
match, not expired) whose only pack file is absent, the key load fails (the
second conjunct shows the pack's keys slot ends `Failed`), yet `validate`
returns `Ok(true)`: `validate_packs` filters key-failed packs out of the
conjunction instead of failing the scope. -/
theorem c3_validate_ignores_failed_keys :
    PackScope.validate sc3 opts3 10 metafsEmpty fsEmpty = .ok true ∧
    loadKeysAL fsEmpty (populateList ["r", "s"] m3)
      = [("h", ⟨["r", "s", "0", "p"], .failed (.err "cache pack file does not exists"),
          .pending⟩)] := by
  constructor
  · decide
  · decide

/-- Claim C4 (failing input).  The claim says a failing scope save is
confined to that scope: other scopes still commit and the failing scope
keeps its previous state.  On the concrete store `st4`, saving scope `A`
panics (the out-of-bounds push into the empty `new_scope_meta.packs`
vector), and although scope `B` alone would save fine (third conjunct),
`idle` aborts as a whole: the error propagates and the registry — already
emptied by `mem::replace` — stays empty, so `B` is not committed and `A`
loses even its previous in-memory state. -/
theorem c4_idle_failure_not_isolated :
    (PackStorage.idle st4 opts1 100).1 = .error (.fatal "index out of bounds") ∧
    (PackStorage.idle st4 opts1 100).2 = ⟨[], []⟩ ∧
    save_scope (PackScope.new ["root", "B"]) [([108], some [2])] opts1 100
      = .ok ⟨["root", "B"], .value ⟨1, 1000000, 100, []⟩, .value []⟩ := by
  refine ⟨by decide, by decide, by decide⟩

/-- Claim C5 (failing input).  The claim says buckets untouched by the
update keep their pack metas and packs unchanged.  On the concrete scope
`sc5`, whose single bucket holds one pack, and the *empty* update map (so
every bucket is untouched), `save_scope` returns a scope whose meta lists no
packs at all and whose pack map is empty: `new_scope_meta.packs` starts as
an empty vector and untouched buckets are never copied over. -/
theorem c5_untouched_bucket_dropped :
    save_scope sc5 [] opts1 100
      = .ok ⟨["root", "s"], .value ⟨1, 1000000, 100, []⟩, .value []⟩ := by
  decide

/-- Claim C6 (failing input).  The claim says the live entries of a dirty
bucket are greedily partitioned into new packs so that each live entry lands
in exactly one pack of the new scope.  On the concrete scope `sc5` with the
staged update `k ↦ v2` (an update of the sole existing key, so the old pack
is removed and the live entry set is `[(k, v2)]`), the returned scope has no
packs whatsoever: the partitioning is not implemented — `new_packs` stays
empty and the computed live entries are discarded. -/
theorem c6_live_entries_never_packed :
    save_scope sc5 [([107], some [119])] opts1 100
      = .ok ⟨["root", "s"], .value ⟨1, 1000000, 100, []⟩, .value []⟩ := by
  decide

/-- Claim C7 (counterexample).  The claim says `read_keys` returns a
MalformedHeader-kind *error value* when the key-length line fails decimal
parsing.  On the concrete pack file whose first line is `x`, the source
instead hits `.expect("should have meta info")` — a panic (modelled as
`RErr.fatal`), not an error return. -/
theorem c7_malformed_header_is_panic :
    Pack.read_keys fs7bad ["f"] = .error (.fatal "should have meta info") := by
  decide

/-- Claim C8 (failing input).  The claim says a managed path with a
resolvable library version ends up stored as `LibVersion(v)`.  On the
concrete path `f8` (existing, not immutable, managed, version "1.0.0"),
`Snapshot::add` first stores `LibVersion("1.0.0")` and then unconditionally
overwrites it with the shared `CompileTime(t0)` entry (first conjunct shows
the two ordered writes), so the value a reader finally sees deserializes to
`CompileTime(t0)`, not `LibVersion` (second conjunct). -/
theorem c8_managed_strategy_overwritten :
    Snapshot.add 42 [f8]
      = [("/m/a.js", .libVersion "1.0.0"), ("/m/a.js", .compileTime 42)] ∧
    finalStored (Snapshot.add 42 [f8]) "/m/a.js" = some (.compileTime 42) := by
  constructor
  · decide
  · decide

/-- Claim C9 (counterexample).  The claim says `validate` answers
`Ok(true)` exactly when the expected string is the hex rendering of the
fxhash of the *concatenated* key bytes followed by count, size and mtime.
On the concrete two-key input (`keys = ["a","b"]`, file of size 3, mtime
5 ns) the expected string is exactly that spec-side rendering, yet
`validate` answers `Ok(false)`: the source feeds each key to the hasher as
a separate `write` call, and FxHasher's chunking restarts at every call, so
hashing `"a"` then `"b"` differs from hashing `"ab"` (third conjunct). -/
theorem c9_concat_hash_differs :
    Pack.validate fs9 ["f9"] [[97], [98]] (hex16 (specPackHash [[97], [98]] 3 5))
      = .ok false ∧
    hex16 (specPackHash [[97], [98]] 3 5) = "cb0815611f119f2e" ∧
    packHash [[97], [98]] 3 5 ≠ specPackHash [[97], [98]] 3 5 := by
  refine ⟨by decide, by decide, by decide⟩

/-- When every declared length stays within the blob, the slicing loop of
`read_keys` returns the keys sliced at the running offsets. -/
theorem sliceKeys_ok (lens : List Nat) (blob : List Nat) :
    ∀ last, last + lens.sum ≤ blob.length →
      sliceKeys lens blob last = .ok (sliceSpec lens blob last) := by
  induction lens with
  | nil => intro last h; rfl
  | cons kl t ih =>
    intro last h
    rw [List.sum_cons] at h
    have h1 : last + kl ≤ blob.length := by omega
    have h2 : (last + kl) + t.sum ≤ blob.length := by omega
    simp only [sliceKeys, sliceSpec, if_pos h1, ih (last + kl) h2]

/-- When the declared lengths overrun the blob, the slicing loop of
`read_keys` hits the out-of-bounds slice panic. -/
theorem sliceKeys_oob (lens : List Nat) (blob : List Nat) :
    ∀ last, last ≤ blob.length → blob.length < last + lens.sum →
      sliceKeys lens blob last = .error (.fatal "byte index out of range") := by
  induction lens with
  | nil =>
    intro last h1 h2
    rw [List.sum_nil] at h2
    omega
  | cons kl t ih =>
    intro last h1 h2
    rw [List.sum_cons] at h2
    by_cases hk : last + kl ≤ blob.length
    · simp only [sliceKeys, if_pos hk, ih (last + kl) hk (by omega)]
    · simp only [sliceKeys, if_neg hk]

/-- The conjunction `validate_packs` computes is true exactly when every
pack of the map whose keys slot is `Value` passes `Pack::validate`
(key-failed and key-pending packs are skipped). -/
theorem validatePacksB_eq_true_iff (fs : FS) (l : List (String × Pack)) :
    validatePacksB fs l = true ↔
      ∀ hp ∈ l, ∀ ks, hp.2.keys = PackKeysState.value ks →
        pvBool fs hp.2.path ks hp.1 = true := by
  unfold validatePacksB
  rw [List.all_eq_true]
  constructor
  · intro H hp hmem ks hks
    have hf : hp ∈ l.filter (fun hp => keysIsValue hp.2.keys) := by
      rw [List.mem_filter]
      exact ⟨hmem, by rw [hks]; rfl⟩
    have hv := H hp hf
    rw [hks] at hv
    exact hv
  · intro H hp hf
    obtain ⟨hmem, hkv⟩ := List.mem_filter.mp hf
    cases hks : hp.2.keys with
    | pending => rfl
    | failed e => rfl
    | value ks => exact H hp hmem ks hks

/-- Claim C7 (amended).  `Pack::read_keys` behaves as follows: a Missing
error return when the file is absent; a *panic* (`.expect("should have meta
info")`), not an error return, when the key-length line fails decimal
parsing; a *panic* (out-of-bounds slice), not an error return, when the key
blob is shorter than the sum of the declared lengths; and on a well-formed
pack file the key sequence sliced by the declared offsets. -/
theorem c7_read_keys_behaviour :
    (∀ (fs : FS) (p : RPath), fs p = none →
      Pack.read_keys fs p = .error (.err "cache pack file does not exists")) ∧
    (∀ (fs : FS) (p : RPath) (fd : FileData) (l0 : List Nat) (rest : List (List Nat))
       (m0 : List Nat),
      fs p = some fd → linesOf fd.bytes = l0 :: rest → rustLine l0 = .ok m0 →
      parseLens m0 = none →
      Pack.read_keys fs p = .error (.fatal "should have meta info")) ∧
    (∀ (fs : FS) (p : RPath) (fd : FileData) (l0 l1 : List Nat) (rest : List (List Nat))
       (m0 lens blob : List Nat),
      fs p = some fd → linesOf fd.bytes = l0 :: l1 :: rest → rustLine l0 = .ok m0 →
      parseLens m0 = some lens → rustLine l1 = .ok blob → blob.length < lens.sum →
      Pack.read_keys fs p = .error (.fatal "byte index out of range")) ∧
    (∀ (fs : FS) (p : RPath) (fd : FileData) (l0 l1 : List Nat) (rest : List (List Nat))
       (m0 lens blob : List Nat),
      fs p = some fd → linesOf fd.bytes = l0 :: l1 :: rest → rustLine l0 = .ok m0 →
      parseLens m0 = some lens → rustLine l1 = .ok blob → lens.sum ≤ blob.length →
      Pack.read_keys fs p = .ok (sliceSpec lens blob 0)) := by
  refine ⟨?_, ?_, ?_, ?_⟩
  · intro fs p hfs
    simp only [Pack.read_keys, hfs]
  · intro fs p fd l0 rest m0 hfs hlines hl0 hpl
    simp only [Pack.read_keys, hfs, hlines, hl0, hpl]
  · intro fs p fd l0 l1 rest m0 lens blob hfs hlines hl0 hpl hl1 hlen
    simp only [Pack.read_keys, hfs, hlines, hl0, hpl, hl1]
    exact sliceKeys_oob lens blob 0 (Nat.zero_le _) (by omega)
  · intro fs p fd l0 l1 rest m0 lens blob hfs hlines hl0 hpl hl1 hlen
    simp only [Pack.read_keys, hfs, hlines, hl0, hpl, hl1]
    exact sliceKeys_ok lens blob 0 (by omega)

/-- Claim C7 (witness).  The amended behaviour instantiated at concrete
inputs: on the empty file system `read_keys` reports the Missing error, and
on the concrete well-formed one-key pack file it returns the declared key. -/
theorem c7_read_keys_behaviour_witness :
    Pack.read_keys fsEmpty ["f"] = .error (.err "cache pack file does not exists") ∧
    Pack.read_keys fs7ok ["f7"] = .ok [[107]] := by
  constructor
  · exact c7_read_keys_behaviour.1 fsEmpty ["f"] rfl
  · exact (c7_read_keys_behaviour.2.2.2 fs7ok ["f7"] ⟨[49, 10, 107, 10], 9⟩ [49] [107] []
      [49] [1] [107] rfl (by decide) (by decide) (by decide) (by decide) (by decide)).trans
      (by decide)

/-- Claim C9 (amended).  `Pack::validate` returns an error when the file
cannot be opened, and otherwise answers `Ok(true)` iff the expected string
equals the zero-padded 16-char lowercase hex rendering of the 64-bit fxhash
obtained by feeding each key to the hasher as its own `write` call (the
chunking restarting per key), then the key count, the file size as u64 and
the mtime-ns as i64 each as one 64-bit word. -/
theorem c9_validate_characterization :
    (∀ (fs : FS) (p : RPath) (keys : List (List Nat)) (expected : String),
      fs p = none →
      Pack.validate fs p keys expected = .error (.err "open pack file failed")) ∧
    (∀ (fs : FS) (p : RPath) (keys : List (List Nat)) (expected : String) (fd : FileData),
      fs p = some fd →
      (Pack.validate fs p keys expected = .ok true ↔
        expected = hex16 (packHash keys fd.bytes.length fd.mtimeNs))) := by
  constructor
  · intro fs p keys expected hfs
    simp only [Pack.validate, hfs]
  · intro fs p keys expected fd hfs
    simp only [Pack.validate, hfs, Except.ok.injEq, decide_eq_true_eq]

/-- Claim C9 (witness).  The characterization instantiated concretely: a
missing file errors, and the per-key-feed hash rendering is exactly what
`validate` accepts. -/
theorem c9_validate_characterization_witness :
    Pack.validate fsEmpty ["f9"] [[97], [98]] "x" = .error (.err "open pack file failed") ∧
    Pack.validate fs9 ["f9"] [[97], [98]] (hex16 (packHash [[97], [98]] 3 5)) = .ok true := by
  constructor
  · exact c9_validate_characterization.1 fsEmpty ["f9"] [[97], [98]] "x" rfl
  · exact (c9_validate_characterization.2 fs9 ["f9"] [[97], [98]]
      (hex16 (packHash [[97], [98]] 3 5)) ⟨[0, 1, 2], 5⟩ (by decide)).mpr (by decide)

/-- Claim C3 (amended).  For a scope whose meta is loaded (with the section-3
invariant that the meta lists at least `buckets` bucket entries) and whose
`last_modified` does not lie in the future, `validate` returns `Ok(true)`
iff the options match, the scope is not expired, and every pack of the
populated map *whose keys loaded successfully* passes `Pack::validate`
against its recorded hash — packs whose keys failed to load are skipped and
do not make the scope invalid. -/
theorem c3_validate_characterization (path : RPath) (m : ScopeMeta)
    (opts : PackStorageOptions) (ct : Nat) (metafs : RPath → Option ScopeMeta) (fs : FS)
    (hlen : m.buckets ≤ m.packs.length) (hlm : m.last_modified ≤ ct) :
    PackScope.validate ⟨path, .value m, .pending⟩ opts ct metafs fs = .ok true ↔
      (m.buckets = opts.buckets ∧ m.max_pack_size = opts.max_pack_size ∧
       ct - m.last_modified ≤ opts.expires ∧
       ∀ hp ∈ loadKeysAL fs (populateList path m), ∀ ks,
         hp.2.keys = PackKeysState.value ks → pvBool fs hp.2.path ks hp.1 = true) := by
  have hens : ensureScope metafs ⟨path, .value m, .pending⟩ = .ok (m, populateList path m) := by
    simp only [ensureScope, populatePacks, if_pos hlen]
  have hsub : checkedSub ct m.last_modified = .ok (ct - m.last_modified) := by
    simp only [checkedSub, if_pos hlm]
  by_cases hb : m.buckets = opts.buckets ∧ m.max_pack_size = opts.max_pack_size
  · have hopt : ¬(m.buckets ≠ opts.buckets ∨ m.max_pack_size ≠ opts.max_pack_size) := by
      push_neg
      exact hb
    by_cases hexp : opts.expires < ct - m.last_modified
    · simp only [PackScope.validate, hens, hsub, if_neg hopt, if_pos hexp]
      exact ⟨fun h => absurd h (by simp), fun h => absurd h.2.2.1 (by omega)⟩
    · simp only [PackScope.validate, hens, hsub, if_neg hopt, if_neg hexp, Except.ok.injEq]
      rw [validatePacksB_eq_true_iff]
      exact ⟨fun h => ⟨hb.1, hb.2, by omega, h⟩, fun h => h.2.2.2⟩
  · have hopt : m.buckets ≠ opts.buckets ∨ m.max_pack_size ≠ opts.max_pack_size :=
      not_and_or.mp hb
    simp only [PackScope.validate, hens, if_pos hopt]
    exact ⟨fun h => absurd h (by simp), fun h => absurd ⟨h.1, h.2.1⟩ hb⟩

/-- Claim C3 (witness).  The characterization instantiated on the concrete
scope `sc3w`, whose single pack file exists and carries the correct recorded
hash: `validate` answers `Ok(true)`. -/
theorem c3_validate_characterization_witness :
    PackScope.validate sc3w opts3 10 metafsEmpty fs3w = .ok true := by
  refine (c3_validate_characterization ["r", "s"] m3w opts3 10 metafsEmpty fs3w
    (by decide) (by decide)).mpr ⟨rfl, rfl, by decide, ?_⟩
  intro hp hmem ks hks
  have hload : loadKeysAL fs3w (populateList ["r", "s"] m3w)
      = [(hex16 (packHash [[107]] 4 9),
          ⟨["r", "s", "0", "p"], .value [[107]], .pending⟩)] := by decide
  rw [hload, List.mem_singleton] at hmem
  subst hmem
  injection hks with hks'
  subst hks'
  decide

/-- Claim C10.  The expiry check of `PackScope::validate` computes
`current_time - last_modified` in u64 arithmetic.  Under the precondition
`last_modified ≤ current_time` the subtraction is well-defined and the
scope is rejected as expired exactly when the difference exceeds
`options.expires`; when `last_modified` lies in the future the subtraction
underflows and `validate` aborts (the debug-build overflow panic; a release
build would instead wrap to a huge age), so `validate` is total only under
that precondition. -/
theorem c10_expiry_subtraction (path : RPath) (m : ScopeMeta)
    (opts : PackStorageOptions) (ct : Nat) (metafs : RPath → Option ScopeMeta) (fs : FS)
    (hlen : m.buckets ≤ m.packs.length)
    (hb : m.buckets = opts.buckets) (hm : m.max_pack_size = opts.max_pack_size) :
    (m.last_modified ≤ ct →
      (PackScope.validate ⟨path, .value m, .pending⟩ opts ct metafs fs
          = .error (.err "cache meta expired") ↔ opts.expires < ct - m.last_modified)) ∧
    (ct < m.last_modified →
      PackScope.validate ⟨path, .value m, .pending⟩ opts ct metafs fs
        = .error (.fatal "attempt to subtract with overflow")) := by
  have hens : ensureScope metafs ⟨path, .value m, .pending⟩ = .ok (m, populateList path m) := by
    simp only [ensureScope, populatePacks, if_pos hlen]
  have hopt : ¬(m.buckets ≠ opts.buckets ∨ m.max_pack_size ≠ opts.max_pack_size) := by
    push_neg
    exact ⟨hb, hm⟩
  constructor
  · intro hlm
    have hsub : checkedSub ct m.last_modified = .ok (ct - m.last_modified) := by
      simp only [checkedSub, if_pos hlm]
    by_cases hexp : opts.expires < ct - m.last_modified
    · simp only [PackScope.validate, hens, hsub, if_neg hopt, if_pos hexp]
      simpa using hexp
    · simp only [PackScope.validate, hens, hsub, if_neg hopt, if_neg hexp]
      exact iff_of_false (by simp) hexp
  · intro hgt
    have hsub : checkedSub ct m.last_modified
        = .error (.fatal "attempt to subtract with overflow") := by
      simp only [checkedSub, if_neg (show ¬m.last_modified ≤ ct by omega)]
    simp only [PackScope.validate, hens, hsub, if_neg hopt]

/-- Claim C10 (witness).  Concrete instances of both branches: at current
time 60 the scope written at second 50 with a 3-second expiry is rejected as
expired; at current time 40 (before its own `last_modified`) the subtraction
underflow aborts `validate`. -/
theorem c10_expiry_subtraction_witness :
    PackScope.validate ⟨["w"], .value m10, .pending⟩ opts10 60 metafsEmpty fsEmpty
      = .error (.err "cache meta expired") ∧
    PackScope.validate ⟨["w"], .value m10, .pending⟩ opts10 40 metafsEmpty fsEmpty
      = .error (.fatal "attempt to subtract with overflow") := by
  constructor
  · exact ((c10_expiry_subtraction ["w"] m10 opts10 60 metafsEmpty fsEmpty
      (by decide) rfl rfl).1 (by decide)).mpr (by decide)
  · exact (c10_expiry_subtraction ["w"] m10 opts10 40 metafsEmpty fsEmpty
      (by decide) rfl rfl).2 (by decide)
